import Mathlib

/-
Verification development for the HDF5 contingency-analysis reader
(src/gridpack_integration/read_scenario.py).

The hierarchical container is modelled as a tree of groups (with numeric
attributes and named children) and datasets (2-D numeric tables, 1-D
numeric arrays, 1-D text arrays).  Physical quantities are modelled by
rationals.  The summarizer is translated statement by statement into a
writer-plus-exception result type that records, in order, every attempted
container read and every rendered report line, so that properties about
emitted rows and attempted reads can be stated over the trace.
-/

namespace ExaGridRead

/-- Payload of a dataset node: a 2-D numeric table, a 1-D numeric array,
or a 1-D text array. -/
inductive HData where
  | nums (rows : List (List Rat))
  | nums1 (xs : List Rat)
  | strs (xs : List String)

/-- A node of the hierarchical container: either a dataset or a group
carrying numeric attributes and named children. -/
inductive HNode where
  | dataset (data : HData)
  | group (attrs : List (String × Rat)) (children : List (String × HNode))

/-- Look up an attribute by name in an attribute list. -/
def attrGet : List (String × Rat) → String → Option Rat
  | [], _ => none
  | (k, v) :: rest, name => if k = name then some v else attrGet rest name

/-- Look up a child by name in a child list. -/
def childGet : List (String × HNode) → String → Option HNode
  | [], _ => none
  | (k, c) :: rest, name => if k = name then some c else childGet rest name

/-- Attribute lookup on a node; datasets carry no attributes here. -/
def attrLookup : HNode → String → Option Rat
  | HNode.dataset _, _ => none
  | HNode.group attrs _, name => attrGet attrs name

/-- Resolve a slash-delimited path (given as its component list) against a
node, as h5py membership and item access do.  Models both the membership
test of read_element and every indexing read of the summarizer. -/
def resolve : HNode → List String → Option HNode
  | n, [] => some n
  | HNode.dataset _, _ :: _ => none
  | HNode.group _ cs, k :: p =>
    match childGet cs k with
    | some c => resolve c p
    | none => none

/-- Membership of a key in a key list. -/
def keyIn (k : String) : List String → Bool
  | [] => false
  | x :: rest => (x = k) || keyIn k rest

/-- All keys of a list are pairwise distinct (HDF5 groups cannot contain
two children with the same name). -/
def keysDistinct : List String → Bool
  | [] => true
  | k :: rest => !(keyIn k rest) && keysDistinct rest

mutual

/-- Well-formedness of a container: every group has distinct child names,
as the HDF5 format guarantees. -/
def wfNode : HNode → Bool
  | HNode.dataset _ => true
  | HNode.group _ cs => keysDistinct (cs.map Prod.fst) && wfChildren cs

/-- Well-formedness of each child of a group. -/
def wfChildren : List (String × HNode) → Bool
  | [] => true
  | (_, c) :: rest => wfNode c && wfChildren rest

end

mutual

/-- The StructureWalker enumeration (visititems): every descendant path,
depth-first, parent before children.  Paths are component lists. -/
def walk : HNode → List (List String)
  | HNode.dataset _ => []
  | HNode.group _ cs => walkChildren cs

/-- Enumeration of the subtrees rooted at each child of a group. -/
def walkChildren : List (String × HNode) → List (List String)
  | [] => []
  | (k, c) :: rest => ([k] :: (walk c).map (fun p => k :: p)) ++ walkChildren rest

end

/-- Error conditions raised while summarizing: a missing path (KeyError on
item access), a missing attribute (KeyError on attrs), an out-of-range
index into a parallel array (IndexError), and indexing a node of the wrong
kind. -/
inductive Err where
  | keyError (p : List String)
  | attrError (name : String)
  | indexError
  | valueError (p : List String)
deriving DecidableEq

/-- One rendered line of the summarizer report, one constructor per print
statement, carrying the data interpolated into the line. -/
inductive OutLine where
  | rule60
  | reading (fp : String)
  | inputLoads (nrows ncols : Nat)
  | columnsNote
  | totalP (v : Rat)
  | totalQ (v : Rat)
  | baseHeader
  | totalGen (v : Rat)
  | voltageRange (lo hi : Rat)
  | loadShed (p q : Rat)
  | dashRule
  | contCount (n : Nat)
  | catalogRow (seq : Nat) (nm ty cid : String)
  | postContHeader
  | tableHeader
  | tableRule
  | contRow (nm : String) (objective pShed : Rat) (status : String)
  | contRowNA (nm : String) (status : String)
  | redispatchTitle
  | genTableHeader
  | genRow (idx : Nat) (basePg contPg delta : Rat)
  | noRedispatch
  | endRule
deriving DecidableEq

/-- An effect of the summarizer: an attempted container read of a path, or
an emitted report line. -/
inductive Event where
  | readPath (p : List String)
  | out (l : OutLine)
deriving DecidableEq

/-- Result of a computation: the ordered trace of events it produced, and
either its value or the error that aborted it.  An error keeps the events
already produced (output is streamed, not buffered). -/
structure Res (α : Type) where
  events : List Event
  result : Except Err α

/-- Sequencing: on success the traces concatenate; on error the remainder
never runs and contributes no events. -/
def Res.bind {α β : Type} (x : Res α) (k : α → Res β) : Res β :=
  match x.result with
  | Except.ok a => ⟨x.events ++ (k a).events, (k a).result⟩
  | Except.error e => ⟨x.events, Except.error e⟩

instance : Monad Res where
  pure a := ⟨[], Except.ok a⟩
  bind := Res.bind

/-- Print one line. -/
def emit (l : OutLine) : Res Unit := ⟨[Event.out l], Except.ok ()⟩

/-- Print a precomputed sequence of lines. -/
def emitAll (es : List Event) : Res Unit := ⟨es, Except.ok ()⟩

/-- Item access on the open file: records the attempted read, then fails
with KeyError when the path does not resolve. -/
def readNode (f : HNode) (p : List String) : Res HNode :=
  ⟨[Event.readPath p],
   match resolve f p with
   | some n => Except.ok n
   | none => Except.error (Err.keyError p)⟩

/-- Item access relative to a group already in hand (g["opf/nodes/load"]);
the recorded path is the absolute one. -/
def readSub (g : HNode) (base rel : List String) : Res HNode :=
  ⟨[Event.readPath (base ++ rel)],
   match resolve g rel with
   | some n => Except.ok n
   | none => Except.error (Err.keyError (base ++ rel))⟩

/-- Attribute access on a node already in hand; no path read is attempted. -/
def getAttr (n : HNode) (name : String) : Res Rat :=
  ⟨[],
   match attrLookup n name with
   | some v => Except.ok v
   | none => Except.error (Err.attrError name)⟩

/-- Indexing into an in-memory array; IndexError past the end. -/
def listGet {α : Type} (xs : List α) (i : Nat) : Res α :=
  ⟨[],
   match xs.get? i with
   | some x => Except.ok x
   | none => Except.error Err.indexError⟩

/-- A node read as a 2-D numeric table. -/
def asNums (p : List String) : HNode → Res (List (List Rat))
  | HNode.dataset (HData.nums rows) => ⟨[], Except.ok rows⟩
  | _ => ⟨[], Except.error (Err.valueError p)⟩

/-- A node read as a 1-D numeric array. -/
def asNums1 (p : List String) : HNode → Res (List Rat)
  | HNode.dataset (HData.nums1 xs) => ⟨[], Except.ok xs⟩
  | _ => ⟨[], Except.error (Err.valueError p)⟩

/-- A node read as a 1-D text array (already decoded to canonical text). -/
def asStrs (p : List String) : HNode → Res (List String)
  | HNode.dataset (HData.strs xs) => ⟨[], Except.ok xs⟩
  | _ => ⟨[], Except.error (Err.valueError p)⟩

/-- Column j of a table, as the numpy slice table[:, j]. -/
def column (j : Nat) (rows : List (List Rat)) : List Rat :=
  rows.map (fun r => r.getD j 0)

/-- Sum of column j of a table. -/
def colSum (j : Nat) (rows : List (List Rat)) : Rat := (column j rows).sum

/-- Minimum of a numeric array. -/
def listMin : List Rat → Rat
  | [] => 0
  | x :: xs => xs.foldl min x

/-- Maximum of a numeric array. -/
def listMax : List Rat → Rat
  | [] => 0
  | x :: xs => xs.foldl max x

/-- The count attribute, an integer, used as an iteration bound. -/
def ratToNat (q : Rat) : Nat := q.num.toNat

/-- Zero-pad an index to six digits, as the format directive in the
per-contingency path does. -/
def pad6 (j : Nat) : String :=
  let s := toString j
  String.mk (List.replicate (6 - s.length) '0') ++ s

/-- The per-contingency group name built from a 1-based index. -/
def contGroup (j : Nat) : String := "contingency_" ++ pad6 j

/-- Contingency type label: LINE exactly for code 0, GEN for everything
else (the else branch of the conditional expression). -/
def typeStr (c : Rat) : String := if c = 0 then "LINE" else "GEN"

/-- Status when the contingency OPF converged. -/
def statusConverged (pf : Bool) : String := if pf then "PF+OPF OK" else "OPF OK"

/-- Status when the contingency OPF failed. -/
def statusFailed (pf : Bool) : String := if pf then "PF OK, OPF FAIL" else "BOTH FAIL"

/-- The status rendered in a per-contingency row as a function of the two
convergence flags, combining both branches of the loop body. -/
def rowStatus (pf opf : Bool) : String :=
  if opf then statusConverged pf else statusFailed pf

/-- Run body i, body (i+1), ..., body (i+k-1) in order, stopping at the
first error, exactly as a python for-loop over a range. -/
def forLoop (body : Nat → Res Unit) : Nat → Nat → Res Unit
  | _, 0 => pure ()
  | i, Nat.succ k => body i >>= (fun _ => forLoop body (i + 1) k)

/-- One line of the contingency catalog: index the three parallel arrays
(types first, then names, then ids, in evaluation order) and render. -/
def catalogRowAt (types : List Rat) (names ids : List String) (i : Nat) : Res Unit := do
  let t ← listGet types i
  let nm ← listGet names i
  let cid ← listGet ids i
  emit (OutLine.catalogRow (i + 1) nm (typeStr t) cid)

/-- Body of the per-contingency results loop for 0-based index i: resolve
the contingency group, read both convergence flags, and branch on the OPF
flag before touching any solution data. -/
def contBody (f : HNode) (loadInput : List (List Rat)) (names : List String)
    (i : Nat) : Res Unit := do
  let g ← readNode f ["post_contingency", contGroup (i + 1)]
  let pfv ← getAttr g "pf_converged"
  let opfv ← getAttr g "opf_converged"
  if decide (opfv = 1) then do
    let servedNode ← readSub g ["post_contingency", contGroup (i + 1)]
      ["opf", "nodes", "load"]
    let served ← asNums (["post_contingency", contGroup (i + 1)] ++
      ["opf", "nodes", "load"]) servedNode
    let opfNode ← readSub g ["post_contingency", contGroup (i + 1)] ["opf"]
    let objective ← getAttr opfNode "objective"
    let nm ← listGet names i
    emit (OutLine.contRow nm objective (colSum 0 loadInput - colSum 0 served)
      (statusConverged (decide (pfv = 1))))
  else do
    let nm ← listGet names i
    emit (OutLine.contRowNA nm (statusFailed (decide (pfv = 1))))

/-- Per-generator deltas between contingency 1 and the base case:
cont1 active power minus base active power. -/
def dpgOf (baseGen cont1Gen : List (List Rat)) : List Rat :=
  List.zipWith (fun c b => c - b) (column 0 cont1Gen) (column 0 baseGen)

/-- The significance threshold of the redispatch diff. -/
def sigThreshold : Rat := 1 / 100

/-- Rows of the significant-redispatch table: one row per index whose
absolute delta exceeds the threshold, in ascending index order, rendering
the 1-based index, base value, contingency value and signed delta. -/
def sigRowsAux (baseGen cont1Gen : List (List Rat)) : Nat → List Rat → List Event
  | _, [] => []
  | i, d :: rest =>
    (if sigThreshold < |d| then
      [Event.out (OutLine.genRow (i + 1) ((column 0 baseGen).getD i 0)
        ((column 0 cont1Gen).getD i 0) d)]
     else []) ++ sigRowsAux baseGen cont1Gen (i + 1) rest

/-- All significant-redispatch rows. -/
def sigRows (baseGen cont1Gen : List (List Rat)) : List Event :=
  sigRowsAux baseGen cont1Gen 0 (dpgOf baseGen cont1Gen)

/-- The redispatch section after the two generator tables are read: a
header plus the table when any delta is significant, or the explicit
no-significant-redispatch notice otherwise. -/
def redispatchEvents (baseGen cont1Gen : List (List Rat)) : List Event :=
  if (dpgOf baseGen cont1Gen).any (fun d => decide (sigThreshold < |d|)) then
    Event.out OutLine.genTableHeader :: sigRows baseGen cont1Gen
  else
    [Event.out OutLine.noRedispatch]

/-- The whole summarization of read_scenario except its final closing
rule, translated statement by statement in source order. -/
def scenarioBody (fp : String) (f : HNode) : Res Unit := do
  emit OutLine.rule60
  emit (OutLine.reading fp)
  emit OutLine.rule60
  let liNode ← readNode f ["grid", "nodes", "load"]
  let loadInput ← asNums ["grid", "nodes", "load"] liNode
  emit (OutLine.inputLoads loadInput.length (loadInput.headD []).length)
  emit OutLine.columnsNote
  emit (OutLine.totalP (colSum 0 loadInput))
  emit (OutLine.totalQ (colSum 1 loadInput))
  let busNode ← readNode f ["base_solution", "opf", "nodes", "bus"]
  let bus ← asNums ["base_solution", "opf", "nodes", "bus"] busNode
  let genNode ← readNode f ["base_solution", "opf", "nodes", "generator"]
  let gen ← asNums ["base_solution", "opf", "nodes", "generator"] genNode
  let servedNode ← readNode f ["base_solution", "opf", "nodes", "load"]
  let served ← asNums ["base_solution", "opf", "nodes", "load"] servedNode
  emit OutLine.baseHeader
  emit (OutLine.totalGen (column 0 gen).sum)
  emit (OutLine.voltageRange (listMin (column 1 bus)) (listMax (column 1 bus)))
  emit (OutLine.loadShed (colSum 0 loadInput - colSum 0 served)
    (colSum 1 loadInput - colSum 1 served))
  let contNode ← readNode f ["contingencies"]
  let nContR ← getAttr contNode "count"
  let nCont := ratToNat nContR
  let typesNode ← readNode f ["contingencies", "types"]
  let types ← asNums1 ["contingencies", "types"] typesNode
  let namesNode ← readNode f ["contingencies", "names"]
  let names ← asStrs ["contingencies", "names"] namesNode
  let idsNode ← readNode f ["contingencies", "ids"]
  let ids ← asStrs ["contingencies", "ids"] idsNode
  emit OutLine.dashRule
  emit (OutLine.contCount nCont)
  emit OutLine.dashRule
  forLoop (catalogRowAt types names ids) 0 nCont
  emit OutLine.dashRule
  emit OutLine.postContHeader
  emit OutLine.dashRule
  emit OutLine.tableHeader
  emit OutLine.tableRule
  forLoop (contBody f loadInput names) 0 nCont
  emit OutLine.dashRule
  emit OutLine.redispatchTitle
  emit OutLine.dashRule
  let bgNode ← readNode f ["base_solution", "opf", "nodes", "generator"]
  let baseGen ← asNums ["base_solution", "opf", "nodes", "generator"] bgNode
  let c1Node ← readNode f
    ["post_contingency", "contingency_000001", "opf", "nodes", "generator"]
  let cont1Gen ← asNums
    ["post_contingency", "contingency_000001", "opf", "nodes", "generator"] c1Node
  emitAll (redispatchEvents baseGen cont1Gen)

/-- The ScenarioSummarizer: the body followed by the closing rule. -/
def readScenario (fp : String) (f : HNode) : Res Unit :=
  (scenarioBody fp f) >>= (fun _ => emit OutLine.endRule)

/-- The three CLI code paths of main. -/
inductive Component where
  | walker
  | reader
  | summarizer
deriving DecidableEq

/-- CLI dispatch: the if / elif / else chain of main, with python
truthiness on the element option (absent or empty string is falsy). -/
def dispatch (structureFlag : Bool) (element : Option String) : Component :=
  if structureFlag then Component.walker
  else
    match element with
    | some s => if s = "" then Component.summarizer else Component.reader
    | none => Component.summarizer

/-- Process exit code: a missing file raises out of every mode (exit 1);
the walker and the reader return normally on an open file (read_element
handles a missing path by printing the error and the available paths and
returning); the summarizer exits nonzero exactly when it aborts. -/
def exitCode (structureFlag : Bool) (element : Option String) (fp : String)
    (file : Option HNode) : Nat :=
  match file with
  | none => 1
  | some f =>
    match dispatch structureFlag element with
    | Component.walker => 0
    | Component.reader => 0
    | Component.summarizer =>
      match (readScenario fp f).result with
      | Except.ok _ => 0
      | Except.error _ => 1

/-- The grid block of the spec scenario: two loads, demand (10,5) and
(20,8) with unit weights. -/
def sampleGrid : String × HNode :=
  ("grid", HNode.group []
    [("nodes", HNode.group []
      [("load", HNode.dataset (HData.nums [[10, 5, 1, 1], [20, 8, 1, 1]]))])])

/-- The base-case solution block of the spec scenario: served loads
(10,5) and (15,6). -/
def sampleBase : String × HNode :=
  ("base_solution", HNode.group []
    [("opf", HNode.group []
      [("nodes", HNode.group []
        [("bus", HNode.dataset (HData.nums [[1, 1], [1, 1]])),
         ("generator", HNode.dataset (HData.nums [[15], [10]])),
         ("load", HNode.dataset (HData.nums [[10, 5], [15, 6]]))])])])

/-- A converged contingency result group with its OPF solution sub-tree. -/
def sampleCont1 : HNode :=
  HNode.group [("pf_converged", 1), ("opf_converged", 1)]
    [("opf", HNode.group [("objective", 1234)]
      [("nodes", HNode.group []
        [("generator", HNode.dataset (HData.nums [[14], [12]])),
         ("load", HNode.dataset (HData.nums [[10, 5], [14, 6]]))])])]

/-- A non-converged contingency result group: flags only, no solution
sub-tree. -/
def sampleCont2 : HNode :=
  HNode.group [("pf_converged", 1), ("opf_converged", 0)] []

/-- A complete valid file realizing the spec scenario, with two
contingencies: the first converged, the second PF-only. -/
def sampleFile : HNode :=
  HNode.group []
    [sampleGrid,
     sampleBase,
     ("contingencies", HNode.group [("count", 2)]
       [("types", HNode.dataset (HData.nums1 [0, 1])),
        ("names", HNode.dataset (HData.strs ["line_1", "gen_1"])),
        ("ids", HNode.dataset (HData.strs ["l1", "g1"]))]),
     ("post_contingency", HNode.group []
       [("contingency_000001", sampleCont1),
        ("contingency_000002", sampleCont2)])]

/-- A file whose single contingency (the redispatch reference) did not
converge and has no solution sub-tree. -/
def fileC4 : HNode :=
  HNode.group []
    [sampleGrid,
     sampleBase,
     ("contingencies", HNode.group [("count", 1)]
       [("types", HNode.dataset (HData.nums1 [0])),
        ("names", HNode.dataset (HData.strs ["line_1"])),
        ("ids", HNode.dataset (HData.strs ["l1"]))]),
     ("post_contingency", HNode.group []
       [("contingency_000001", sampleCont2)])]

/-- A file whose types array is longer than the declared count: count 1
but two type entries; everything else valid. -/
def fileC5 : HNode :=
  HNode.group []
    [sampleGrid,
     sampleBase,
     ("contingencies", HNode.group [("count", 1)]
       [("types", HNode.dataset (HData.nums1 [0, 1])),
        ("names", HNode.dataset (HData.strs ["line_1"])),
        ("ids", HNode.dataset (HData.strs ["l1"]))]),
     ("post_contingency", HNode.group []
       [("contingency_000001", sampleCont1)])]

/-- The contingency metadata group of fileC5, named so the counterexample
can state its count attribute. -/
def contMetaC5 : HNode :=
  HNode.group [("count", 1)]
    [("types", HNode.dataset (HData.nums1 [0, 1])),
     ("names", HNode.dataset (HData.strs ["line_1"])),
     ("ids", HNode.dataset (HData.strs ["l1"]))]

/-- A file with valid grid and base-case blocks but no contingencies
group at all. -/
def fileC6 : HNode :=
  HNode.group [] [sampleGrid, sampleBase]

/-- Every event of the trace of a computation satisfies P. -/
def EventsOK (P : Event → Prop) {α : Type} (x : Res α) : Prop :=
  ∀ e ∈ x.events, P e

/-- The invariant maintained by every event the summarizer can produce:
a converged-row status is one of its two strings, a failed-row status is
one of its two strings, the closing rule is only emitted by the final
statement, and any attempted read below the opf sub-tree of a
post-contingency group is either the fixed redispatch read of
contingency_000001 or is for a group whose opf_converged attribute was
read back as 1. -/
def GoodEvent (f : HNode) (e : Event) : Prop :=
  (∀ nm ob sh s, e = Event.out (OutLine.contRow nm ob sh s) →
      s = "PF+OPF OK" ∨ s = "OPF OK") ∧
  (∀ nm s, e = Event.out (OutLine.contRowNA nm s) →
      s = "PF OK, OPF FAIL" ∨ s = "BOTH FAIL") ∧
  (e ≠ Event.out OutLine.endRule) ∧
  (∀ nm rest, e = Event.readPath ("post_contingency" :: nm :: "opf" :: rest) →
      (nm = "contingency_000001" ∧ rest = ["nodes", "generator"]) ∨
      (∃ g, resolve f ["post_contingency", nm] = some g ∧
            attrLookup g "opf_converged" = some 1))

/-- Report lines that are neither contingency result rows nor the closing
rule; such lines satisfy the row-status and closing-rule constraints
vacuously. -/
def plainLine : OutLine → Bool
  | OutLine.contRow _ _ _ _ => false
  | OutLine.contRowNA _ _ => false
  | OutLine.endRule => false
  | _ => true

/-- Paths that do not sit below the opf sub-tree of a post-contingency
group. -/
def pathNotOpf : List String → Bool
  | "post_contingency" :: _ :: "opf" :: _ => false
  | _ => true

/-- Executable membership test used to certify concrete trace
memberships. -/
def listMem {α : Type} [DecidableEq α] (a : α) : List α → Bool
  | [] => false
  | x :: rest => if a = x then true else listMem a rest

theorem listMem_mem {α : Type} [DecidableEq α] {a : α} {l : List α}
    (h : listMem a l = true) : a ∈ l := by
  induction l with
  | nil => simp [listMem] at h
  | cons x rest ih =>
    rw [listMem] at h
    by_cases hx : a = x
    · rw [hx]
      exact List.mem_cons_self _ _
    · rw [if_neg hx] at h
      exact List.mem_cons_of_mem _ (ih h)

theorem Res.events_bind {α β : Type} (x : Res α) (k : α → Res β) :
    (x >>= k).events = x.events ++ (match x.result with
      | Except.ok a => (k a).events
      | Except.error _ => []) := by
  show (Res.bind x k).events = _
  unfold Res.bind
  cases h : x.result with
  | ok a => simp
  | error e => simp

theorem Res.result_bind {α β : Type} (x : Res α) (k : α → Res β) :
    (x >>= k).result = match x.result with
      | Except.ok a => (k a).result
      | Except.error e => Except.error e := by
  show (Res.bind x k).result = _
  unfold Res.bind
  cases h : x.result with
  | ok a => simp
  | error e => simp

theorem mem_bind_left {α β : Type} {e : Event} {x : Res α} {k : α → Res β}
    (h : e ∈ x.events) : e ∈ (x >>= k).events := by
  rw [Res.events_bind]
  exact List.mem_append.mpr (Or.inl h)

theorem mem_bind_right {α β : Type} {e : Event} {x : Res α} {k : α → Res β}
    {a : α} (hx : x.result = Except.ok a) (h : e ∈ (k a).events) :
    e ∈ (x >>= k).events := by
  rw [Res.events_bind, hx]
  exact List.mem_append.mpr (Or.inr h)

theorem eventsOK_bind {P : Event → Prop} {α β : Type} {x : Res α}
    {k : α → Res β} (hx : EventsOK P x)
    (hk : ∀ a, x.result = Except.ok a → EventsOK P (k a)) :
    EventsOK P (x >>= k) := by
  intro e he
  rw [Res.events_bind] at he
  rcases List.mem_append.mp he with h | h
  · exact hx e h
  · cases hr : x.result with
    | ok a =>
      rw [hr] at h
      exact hk a hr e h
    | error err =>
      rw [hr] at h
      simp at h

theorem eventsOK_of_nil {P : Event → Prop} {α : Type} {x : Res α}
    (h : x.events = []) : EventsOK P x := by
  intro e he
  rw [h] at he
  simp at he

theorem eventsOK_emit {P : Event → Prop} {l : OutLine}
    (h : P (Event.out l)) : EventsOK P (emit l) := by
  intro e he
  simp [emit] at he
  rw [he]
  exact h

theorem eventsOK_readNode {P : Event → Prop} {f : HNode} {p : List String}
    (h : P (Event.readPath p)) : EventsOK P (readNode f p) := by
  intro e he
  simp [readNode] at he
  rw [he]
  exact h

theorem eventsOK_readSub {P : Event → Prop} {g : HNode}
    {base rel : List String} (h : P (Event.readPath (base ++ rel))) :
    EventsOK P (readSub g base rel) := by
  intro e he
  simp [readSub] at he
  rw [he]
  exact h

theorem eventsOK_emitAll {P : Event → Prop} {es : List Event}
    (h : ∀ e ∈ es, P e) : EventsOK P (emitAll es) := h

theorem asNums_events (p : List String) (n : HNode) : (asNums p n).events = [] := by
  cases n with
  | dataset d => cases d <;> rfl
  | group a c => rfl

theorem asNums1_events (p : List String) (n : HNode) : (asNums1 p n).events = [] := by
  cases n with
  | dataset d => cases d <;> rfl
  | group a c => rfl

theorem asStrs_events (p : List String) (n : HNode) : (asStrs p n).events = [] := by
  cases n with
  | dataset d => cases d <;> rfl
  | group a c => rfl

theorem eventsOK_forLoop {P : Event → Prop} {body : Nat → Res Unit}
    (hb : ∀ i, EventsOK P (body i)) : ∀ n i, EventsOK P (forLoop body i n) := by
  intro n
  induction n with
  | zero =>
    intro i
    exact eventsOK_of_nil rfl
  | succ k ih =>
    intro i
    rw [forLoop]
    exact eventsOK_bind (hb i) (fun _ _ => ih (i + 1))

theorem readNode_result_ok {f : HNode} {p : List String} {n : HNode} :
    (readNode f p).result = Except.ok n ↔ resolve f p = some n := by
  unfold readNode
  cases h : resolve f p <;> simp [h]

theorem getAttr_result_ok {n : HNode} {name : String} {v : Rat} :
    (getAttr n name).result = Except.ok v ↔ attrLookup n name = some v := by
  unfold getAttr
  cases h : attrLookup n name <;> simp [h]

theorem listGet_result_ok {α : Type} {xs : List α} {i : Nat} {x : α} :
    (listGet xs i).result = Except.ok x ↔ xs.get? i = some x := by
  unfold listGet
  cases h : xs.get? i <;> simp [h]

theorem goodEvent_out {f : HNode} {l : OutLine}
    (h1 : ∀ nm ob sh s, l = OutLine.contRow nm ob sh s →
        s = "PF+OPF OK" ∨ s = "OPF OK")
    (h2 : ∀ nm s, l = OutLine.contRowNA nm s →
        s = "PF OK, OPF FAIL" ∨ s = "BOTH FAIL")
    (h3 : l ≠ OutLine.endRule) : GoodEvent f (Event.out l) := by
  refine ⟨?_, ?_, ?_, ?_⟩
  · intro nm ob sh s h
    injection h with h
    exact h1 nm ob sh s h
  · intro nm s h
    injection h with h
    exact h2 nm s h
  · intro h
    injection h with h
    exact h3 h
  · intro nm rest h
    exact Event.noConfusion h

theorem goodEvent_out_plain {f : HNode} {l : OutLine}
    (h : plainLine l = true) : GoodEvent f (Event.out l) := by
  refine goodEvent_out ?_ ?_ ?_
  · intro nm ob sh s he
    rw [he] at h
    simp [plainLine] at h
  · intro nm s he
    rw [he] at h
    simp [plainLine] at h
  · intro he
    rw [he] at h
    simp [plainLine] at h

theorem goodEvent_read_plain {f : HNode} {p : List String}
    (h : pathNotOpf p = true) : GoodEvent f (Event.readPath p) := by
  refine ⟨?_, ?_, ?_, ?_⟩
  · intro nm ob sh s he
    exact Event.noConfusion he
  · intro nm s he
    exact Event.noConfusion he
  · intro he
    exact Event.noConfusion he
  · intro nm rest he
    injection he with hp
    rw [hp] at h
    simp [pathNotOpf] at h

theorem catalogRowAt_events_good (f : HNode) (types : List Rat)
    (names ids : List String) (i : Nat) :
    EventsOK (GoodEvent f) (catalogRowAt types names ids i) := by
  unfold catalogRowAt
  refine eventsOK_bind (eventsOK_of_nil rfl) (fun t _ => ?_)
  refine eventsOK_bind (eventsOK_of_nil rfl) (fun nm _ => ?_)
  refine eventsOK_bind (eventsOK_of_nil rfl) (fun cid _ => ?_)
  exact eventsOK_emit (goodEvent_out_plain rfl)

theorem goodEvent_read_flagged {f g : HNode} {nm0 : String} {rel : List String}
    (hg : resolve f ["post_contingency", nm0] = some g)
    (hflag : attrLookup g "opf_converged" = some 1) :
    GoodEvent f (Event.readPath (["post_contingency", nm0] ++ rel)) := by
  refine ⟨?_, ?_, ?_, ?_⟩
  · intro nm ob sh s he
    exact Event.noConfusion he
  · intro nm s he
    exact Event.noConfusion he
  · intro he
    exact Event.noConfusion he
  · intro nm rest he
    injection he with hp
    have hp2 : nm0 = nm ∧ rel = "opf" :: rest := by simpa using hp
    right
    refine ⟨g, ?_, hflag⟩
    rw [← hp2.1]
    exact hg

theorem statusConverged_cases (b : Bool) :
    statusConverged b = "PF+OPF OK" ∨ statusConverged b = "OPF OK" := by
  cases b
  · right
    rfl
  · left
    rfl

theorem statusFailed_cases (b : Bool) :
    statusFailed b = "PF OK, OPF FAIL" ∨ statusFailed b = "BOTH FAIL" := by
  cases b
  · right
    rfl
  · left
    rfl

theorem contBody_events_good (f : HNode) (loadInput : List (List Rat))
    (names : List String) (i : Nat) :
    EventsOK (GoodEvent f) (contBody f loadInput names i) := by
  unfold contBody
  refine eventsOK_bind (eventsOK_readNode (goodEvent_read_plain rfl)) (fun g hg => ?_)
  rw [readNode_result_ok] at hg
  refine eventsOK_bind (eventsOK_of_nil rfl) (fun pfv _ => ?_)
  refine eventsOK_bind (eventsOK_of_nil rfl) (fun opfv hopf => ?_)
  rw [getAttr_result_ok] at hopf
  by_cases hc : opfv = 1
  · rw [if_pos (by simp [hc])]
    have hflag : attrLookup g "opf_converged" = some 1 := by
      rw [← hc]
      exact hopf
    refine eventsOK_bind (eventsOK_readSub (goodEvent_read_flagged hg hflag))
      (fun sn _ => ?_)
    refine eventsOK_bind (eventsOK_of_nil (asNums_events _ _)) (fun served _ => ?_)
    refine eventsOK_bind (eventsOK_readSub (goodEvent_read_flagged hg hflag))
      (fun onode _ => ?_)
    refine eventsOK_bind (eventsOK_of_nil rfl) (fun ob _ => ?_)
    refine eventsOK_bind (eventsOK_of_nil rfl) (fun nm _ => ?_)
    refine eventsOK_emit (goodEvent_out ?_ ?_ ?_)
    · intro nm2 ob2 sh2 s2 he
      injection he with h1 h2 h3 h4
      rw [← h4]
      exact statusConverged_cases _
    · intro nm2 s2 he
      exact OutLine.noConfusion he
    · intro he
      exact OutLine.noConfusion he
  · rw [if_neg (by simp [hc])]
    refine eventsOK_bind (eventsOK_of_nil rfl) (fun nm _ => ?_)
    refine eventsOK_emit (goodEvent_out ?_ ?_ ?_)
    · intro nm2 ob2 sh2 s2 he
      exact OutLine.noConfusion he
    · intro nm2 s2 he
      injection he with h1 h2
      rw [← h2]
      exact statusFailed_cases _
    · intro he
      exact OutLine.noConfusion he

theorem goodEvent_read_redispatch {f : HNode} :
    GoodEvent f (Event.readPath
      ["post_contingency", "contingency_000001", "opf", "nodes", "generator"]) := by
  refine ⟨?_, ?_, ?_, ?_⟩
  · intro nm ob sh s he
    exact Event.noConfusion he
  · intro nm s he
    exact Event.noConfusion he
  · intro he
    exact Event.noConfusion he
  · intro nm rest he
    injection he with hp
    left
    constructor
    · have h2 := congrArg (fun l => List.getD l 1 "") hp
      simpa using h2.symm
    · have h2 := congrArg (List.drop 3) hp
      simpa using h2.symm

theorem sigRowsAux_good (f : HNode) (b c : List (List Rat)) :
    ∀ (l : List Rat) (j : Nat) (e : Event), e ∈ sigRowsAux b c j l → GoodEvent f e := by
  intro l
  induction l with
  | nil =>
    intro j e he
    simp [sigRowsAux] at he
  | cons d rest ih =>
    intro j e he
    rw [sigRowsAux] at he
    rcases List.mem_append.mp he with h | h
    · by_cases hs : sigThreshold < |d|
      · rw [if_pos hs] at h
        simp at h
        rw [h]
        exact goodEvent_out_plain rfl
      · rw [if_neg hs] at h
        simp at h
    · exact ih (j + 1) e h

theorem redispatchEvents_good (f : HNode) (b c : List (List Rat)) :
    ∀ e ∈ redispatchEvents b c, GoodEvent f e := by
  intro e he
  unfold redispatchEvents at he
  by_cases ha : (dpgOf b c).any (fun d => decide (sigThreshold < |d|)) = true
  · rw [if_pos ha] at he
    rcases List.mem_cons.mp he with h | h
    · rw [h]
      exact goodEvent_out_plain rfl
    · exact sigRowsAux_good f b c _ 0 e h
  · rw [if_neg ha] at he
    simp at he
    rw [he]
    exact goodEvent_out_plain rfl

theorem scenarioBody_events_good (fp : String) (f : HNode) :
    EventsOK (GoodEvent f) (scenarioBody fp f) := by
  unfold scenarioBody
  refine eventsOK_bind (eventsOK_emit (goodEvent_out_plain rfl)) (fun _ _ => ?_)
  refine eventsOK_bind (eventsOK_emit (goodEvent_out_plain rfl)) (fun _ _ => ?_)
  refine eventsOK_bind (eventsOK_emit (goodEvent_out_plain rfl)) (fun _ _ => ?_)
  refine eventsOK_bind (eventsOK_readNode (goodEvent_read_plain rfl)) (fun _ _ => ?_)
  refine eventsOK_bind (eventsOK_of_nil (asNums_events _ _)) (fun loadInput _ => ?_)
  refine eventsOK_bind (eventsOK_emit (goodEvent_out_plain rfl)) (fun _ _ => ?_)
  refine eventsOK_bind (eventsOK_emit (goodEvent_out_plain rfl)) (fun _ _ => ?_)
  refine eventsOK_bind (eventsOK_emit (goodEvent_out_plain rfl)) (fun _ _ => ?_)
  refine eventsOK_bind (eventsOK_emit (goodEvent_out_plain rfl)) (fun _ _ => ?_)
  refine eventsOK_bind (eventsOK_readNode (goodEvent_read_plain rfl)) (fun _ _ => ?_)
  refine eventsOK_bind (eventsOK_of_nil (asNums_events _ _)) (fun bus _ => ?_)
  refine eventsOK_bind (eventsOK_readNode (goodEvent_read_plain rfl)) (fun _ _ => ?_)
  refine eventsOK_bind (eventsOK_of_nil (asNums_events _ _)) (fun gen _ => ?_)
  refine eventsOK_bind (eventsOK_readNode (goodEvent_read_plain rfl)) (fun _ _ => ?_)
  refine eventsOK_bind (eventsOK_of_nil (asNums_events _ _)) (fun served _ => ?_)
  refine eventsOK_bind (eventsOK_emit (goodEvent_out_plain rfl)) (fun _ _ => ?_)
  refine eventsOK_bind (eventsOK_emit (goodEvent_out_plain rfl)) (fun _ _ => ?_)
  refine eventsOK_bind (eventsOK_emit (goodEvent_out_plain rfl)) (fun _ _ => ?_)
  refine eventsOK_bind (eventsOK_emit (goodEvent_out_plain rfl)) (fun _ _ => ?_)
  refine eventsOK_bind (eventsOK_readNode (goodEvent_read_plain rfl)) (fun _ _ => ?_)
  refine eventsOK_bind (eventsOK_of_nil rfl) (fun nContR _ => ?_)
  refine eventsOK_bind (eventsOK_readNode (goodEvent_read_plain rfl)) (fun _ _ => ?_)
  refine eventsOK_bind (eventsOK_of_nil (asNums1_events _ _)) (fun types _ => ?_)
  refine eventsOK_bind (eventsOK_readNode (goodEvent_read_plain rfl)) (fun _ _ => ?_)
  refine eventsOK_bind (eventsOK_of_nil (asStrs_events _ _)) (fun names _ => ?_)
  refine eventsOK_bind (eventsOK_readNode (goodEvent_read_plain rfl)) (fun _ _ => ?_)
  refine eventsOK_bind (eventsOK_of_nil (asStrs_events _ _)) (fun ids _ => ?_)
  refine eventsOK_bind (eventsOK_emit (goodEvent_out_plain rfl)) (fun _ _ => ?_)
  refine eventsOK_bind (eventsOK_emit (goodEvent_out_plain rfl)) (fun _ _ => ?_)
  refine eventsOK_bind (eventsOK_emit (goodEvent_out_plain rfl)) (fun _ _ => ?_)
  refine eventsOK_bind
    (eventsOK_forLoop (fun i => catalogRowAt_events_good f types names ids i) _ 0)
    (fun _ _ => ?_)
  refine eventsOK_bind (eventsOK_emit (goodEvent_out_plain rfl)) (fun _ _ => ?_)
  refine eventsOK_bind (eventsOK_emit (goodEvent_out_plain rfl)) (fun _ _ => ?_)
  refine eventsOK_bind (eventsOK_emit (goodEvent_out_plain rfl)) (fun _ _ => ?_)
  refine eventsOK_bind (eventsOK_emit (goodEvent_out_plain rfl)) (fun _ _ => ?_)
  refine eventsOK_bind (eventsOK_emit (goodEvent_out_plain rfl)) (fun _ _ => ?_)
  refine eventsOK_bind
    (eventsOK_forLoop (fun i => contBody_events_good f loadInput names i) _ 0)
    (fun _ _ => ?_)
  refine eventsOK_bind (eventsOK_emit (goodEvent_out_plain rfl)) (fun _ _ => ?_)
  refine eventsOK_bind (eventsOK_emit (goodEvent_out_plain rfl)) (fun _ _ => ?_)
  refine eventsOK_bind (eventsOK_emit (goodEvent_out_plain rfl)) (fun _ _ => ?_)
  refine eventsOK_bind (eventsOK_readNode (goodEvent_read_plain rfl)) (fun _ _ => ?_)
  refine eventsOK_bind (eventsOK_of_nil (asNums_events _ _)) (fun baseGen _ => ?_)
  refine eventsOK_bind (eventsOK_readNode goodEvent_read_redispatch) (fun _ _ => ?_)
  refine eventsOK_bind (eventsOK_of_nil (asNums_events _ _)) (fun cont1Gen _ => ?_)
  exact eventsOK_emitAll (redispatchEvents_good f baseGen cont1Gen)

theorem readScenario_events_good (fp : String) (f : HNode) :
    ∀ e ∈ (readScenario fp f).events,
      GoodEvent f e ∨ e = Event.out OutLine.endRule := by
  intro e he
  unfold readScenario at he
  rw [Res.events_bind] at he
  rcases List.mem_append.mp he with h | h
  · exact Or.inl (scenarioBody_events_good fp f e h)
  · right
    cases hr : (scenarioBody fp f).result with
    | ok a =>
      rw [hr] at h
      simpa [emit] using h
    | error err =>
      rw [hr] at h
      simp at h

theorem Res.result_pure {α : Type} (a : α) :
    (pure a : Res α).result = Except.ok a := rfl

theorem res_bind_ok_iff {α β : Type} {x : Res α} {k : α → Res β} {b : β} :
    ((x >>= k).result = Except.ok b) ↔
      ∃ a, x.result = Except.ok a ∧ (k a).result = Except.ok b := by
  rw [Res.result_bind]
  cases hr : x.result with
  | ok a => simp
  | error e => simp

theorem listGet_ok_iff {α : Type} (xs : List α) (i : Nat) :
    (∃ x, (listGet xs i).result = Except.ok x) ↔ i < xs.length := by
  constructor
  · rintro ⟨x, hx⟩
    rw [listGet_result_ok] at hx
    obtain ⟨hlt, _⟩ := List.get?_eq_some.mp hx
    exact hlt
  · intro h
    refine ⟨xs.get ⟨i, h⟩, ?_⟩
    rw [listGet_result_ok]
    exact List.get?_eq_get h

theorem catalogRowAt_result_ok (types : List Rat) (names ids : List String)
    (i : Nat) :
    ((catalogRowAt types names ids i).result = Except.ok ()) ↔
      (i < types.length ∧ i < names.length ∧ i < ids.length) := by
  unfold catalogRowAt
  constructor
  · intro h
    rw [res_bind_ok_iff] at h
    obtain ⟨t, ht, h⟩ := h
    rw [res_bind_ok_iff] at h
    obtain ⟨nm, hn, h⟩ := h
    rw [res_bind_ok_iff] at h
    obtain ⟨cid, hc, h⟩ := h
    exact ⟨(listGet_ok_iff types i).mp ⟨t, ht⟩,
      (listGet_ok_iff names i).mp ⟨nm, hn⟩,
      (listGet_ok_iff ids i).mp ⟨cid, hc⟩⟩
  · rintro ⟨h1, h2, h3⟩
    obtain ⟨t, ht⟩ := (listGet_ok_iff types i).mpr h1
    obtain ⟨nm, hn⟩ := (listGet_ok_iff names i).mpr h2
    obtain ⟨cid, hc⟩ := (listGet_ok_iff ids i).mpr h3
    rw [res_bind_ok_iff]
    refine ⟨t, ht, ?_⟩
    rw [res_bind_ok_iff]
    refine ⟨nm, hn, ?_⟩
    rw [res_bind_ok_iff]
    exact ⟨cid, hc, rfl⟩

theorem forLoop_catalog_result (types : List Rat) (names ids : List String) :
    ∀ (k i : Nat),
      ((forLoop (catalogRowAt types names ids) i k).result = Except.ok ()) ↔
        (k = 0 ∨ (i + k ≤ types.length ∧ i + k ≤ names.length ∧
          i + k ≤ ids.length)) := by
  intro k
  induction k with
  | zero =>
    intro i
    simp [forLoop, Res.result_pure]
  | succ k ih =>
    intro i
    rw [forLoop]
    constructor
    · intro h
      rw [res_bind_ok_iff] at h
      obtain ⟨a, ha, hrest⟩ := h
      have hb := (catalogRowAt_result_ok types names ids i).mp (by cases a; exact ha)
      have hr := (ih (i + 1)).mp hrest
      right
      rcases hr with rfl | hr
      · refine ⟨?_, ?_, ?_⟩ <;> omega
      · obtain ⟨r1, r2, r3⟩ := hr
        obtain ⟨b1, b2, b3⟩ := hb
        refine ⟨?_, ?_, ?_⟩ <;> omega
    · rintro (h0 | ⟨h1, h2, h3⟩)
      · exact absurd h0 (Nat.succ_ne_zero k)
      · rw [res_bind_ok_iff]
        refine ⟨(), ?_, ?_⟩
        · rw [catalogRowAt_result_ok]
          refine ⟨?_, ?_, ?_⟩ <;> omega
        · rw [ih (i + 1)]
          right
          refine ⟨?_, ?_, ?_⟩ <;> omega

theorem mem_sigRowsAux (b c : List (List Rat)) :
    ∀ (l : List Rat) (j : Nat) (e : Event),
      e ∈ sigRowsAux b c j l ↔
        ∃ t d, l.get? t = some d ∧ sigThreshold < |d| ∧
          e = Event.out (OutLine.genRow (j + t + 1) ((column 0 b).getD (j + t) 0)
            ((column 0 c).getD (j + t) 0) d) := by
  intro l
  induction l with
  | nil =>
    intro j e
    simp [sigRowsAux]
  | cons d0 rest ih =>
    intro j e
    rw [sigRowsAux, List.mem_append]
    constructor
    · rintro (h | h)
      · by_cases hs : sigThreshold < |d0|
        · rw [if_pos hs] at h
          simp at h
          exact ⟨0, d0, rfl, hs, by simpa using h⟩
        · rw [if_neg hs] at h
          simp at h
      · obtain ⟨t, d, h1, h2, h3⟩ := (ih (j + 1) e).mp h
        refine ⟨t + 1, d, by simpa using h1, h2, ?_⟩
        have harith : j + 1 + t = j + (t + 1) := by omega
        rw [harith] at h3
        exact h3
    · rintro ⟨t, d, h1, h2, h3⟩
      cases t with
      | zero =>
        left
        have hd : d0 = d := by simpa using h1
        rw [← hd] at h2
        rw [if_pos h2]
        rw [h3, ← hd]
        simp
      | succ t =>
        right
        refine (ih (j + 1) e).mpr ⟨t, d, by simpa using h1, h2, ?_⟩
        have harith : j + 1 + t = j + (t + 1) := by omega
        rw [harith]
        exact h3

theorem zipWith_get2 (f : Rat → Rat → Rat) :
    ∀ (xs ys : List Rat) (i : Nat),
      (List.zipWith f xs ys).get? i =
        match xs.get? i, ys.get? i with
        | some a, some b => some (f a b)
        | _, _ => none := by
  intro xs
  induction xs with
  | nil =>
    intro ys i
    cases ys <;> cases i <;> rfl
  | cons x xs ih =>
    intro ys i
    cases ys with
    | nil =>
      cases i with
      | zero => rfl
      | succ n => cases hx : xs.get? n <;> simp [List.get?, hx]
    | cons y ys =>
      cases i with
      | zero => rfl
      | succ n => simpa using ih ys n

theorem dpgOf_get? (b c : List (List Rat)) (g : Nat)
    (h : g < (dpgOf b c).length) :
    (dpgOf b c).get? g =
      some ((column 0 c).getD g 0 - (column 0 b).getD g 0) := by
  unfold dpgOf at h ⊢
  rw [List.length_zipWith] at h
  have h1 : g < (column 0 c).length := lt_of_lt_of_le h (min_le_left _ _)
  have h2 : g < (column 0 b).length := lt_of_lt_of_le h (min_le_right _ _)
  rw [zipWith_get2, List.get?_eq_get h1, List.get?_eq_get h2]
  rw [List.getD_eq_getD_get?, List.getD_eq_getD_get?]
  rw [List.get?_eq_get h1, List.get?_eq_get h2]
  rfl

theorem mem_walkChildren {cs : List (String × HNode)} {p : List String}
    (hp : p ∈ walkChildren cs) :
    ∃ k c, (k, c) ∈ cs ∧ (p = [k] ∨ ∃ q, q ∈ walk c ∧ p = k :: q) := by
  induction cs with
  | nil => simp [walkChildren] at hp
  | cons kc rest ih =>
    obtain ⟨k, c⟩ := kc
    rw [walkChildren] at hp
    rcases List.mem_append.mp hp with h | h
    · rcases List.mem_cons.mp h with h1 | h1
      · exact ⟨k, c, List.mem_cons_self _ _, Or.inl h1⟩
      · obtain ⟨q, hq, hq2⟩ := List.mem_map.mp h1
        exact ⟨k, c, List.mem_cons_self _ _, Or.inr ⟨q, hq, hq2.symm⟩⟩
    · obtain ⟨k1, c1, hmem, hcase⟩ := ih h
      exact ⟨k1, c1, List.mem_cons_of_mem _ hmem, hcase⟩

theorem keyIn_iff (k : String) (l : List String) : keyIn k l = true ↔ k ∈ l := by
  induction l with
  | nil => simp [keyIn]
  | cons x rest ih =>
    rw [keyIn, Bool.or_eq_true, ih]
    simp [List.mem_cons, eq_comm]

theorem childGet_of_mem {cs : List (String × HNode)} {k : String} {c : HNode}
    (hnd : keysDistinct (cs.map Prod.fst) = true) (h : (k, c) ∈ cs) :
    childGet cs k = some c := by
  induction cs with
  | nil => simp at h
  | cons kc rest ih =>
    obtain ⟨k1, c1⟩ := kc
    rw [List.map_cons, keysDistinct, Bool.and_eq_true] at hnd
    rcases List.mem_cons.mp h with h1 | h1
    · injection h1 with hk hc
      rw [childGet, if_pos hk.symm, hc]
    · rw [childGet]
      by_cases hk : k1 = k
      · exfalso
        have hkin : keyIn k1 (rest.map Prod.fst) = true := by
          rw [keyIn_iff, hk]
          exact List.mem_map.mpr ⟨(k, c), h1, rfl⟩
        have hneg := hnd.1
        rw [hkin] at hneg
        simp at hneg
      · rw [if_neg hk]
        exact ih hnd.2 h1

theorem wfChildren_mem {cs : List (String × HNode)} {k : String} {c : HNode}
    (hwf : wfChildren cs = true) (h : (k, c) ∈ cs) : wfNode c = true := by
  induction cs with
  | nil => simp at h
  | cons kc rest ih =>
    obtain ⟨k1, c1⟩ := kc
    rw [wfChildren, Bool.and_eq_true] at hwf
    rcases List.mem_cons.mp h with h1 | h1
    · injection h1 with hk hc
      rw [hc]
      exact hwf.1
    · exact ih hwf.2 h1

/-- C7: for every path p yielded by the StructureWalker enumeration of a
well-formed container, resolving p with the PathReader against the same
container succeeds and never reports NotFound. -/
theorem c7_walk_resolve (p : List String) (t : HNode)
    (hwf : wfNode t = true) (hp : p ∈ walk t) : (resolve t p).isSome = true := by
  induction p generalizing t with
  | nil =>
    cases t with
    | dataset d => simp [walk] at hp
    | group attrs cs =>
      rw [walk] at hp
      obtain ⟨k, c, hmem, hcase⟩ := mem_walkChildren hp
      rcases hcase with h1 | ⟨q, hq, h2⟩
      · exact List.noConfusion h1
      · exact List.noConfusion h2
  | cons k q ih =>
    cases t with
    | dataset d => simp [walk] at hp
    | group attrs cs =>
      rw [walk] at hp
      obtain ⟨k1, c, hmem, hcase⟩ := mem_walkChildren hp
      rw [wfNode, Bool.and_eq_true] at hwf
      have hwc : wfNode c = true := wfChildren_mem hwf.2 hmem
      rcases hcase with h1 | ⟨q1, hq1, h2⟩
      · injection h1 with hk hq
        subst hq
        rw [← hk] at hmem
        have hg : childGet cs k = some c := childGet_of_mem hwf.1 hmem
        rw [resolve, hg]
        simp [resolve]
      · injection h2 with hk hq
        subst hq
        rw [← hk] at hmem
        have hg : childGet cs k = some c := childGet_of_mem hwf.1 hmem
        rw [resolve, hg]
        exact ih c hwc hq1

/-- Witness for C7 at a concrete container and enumerated path. -/
theorem c7_walk_resolve_witness :
    (resolve sampleFile ["grid", "nodes", "load"]).isSome = true :=
  c7_walk_resolve ["grid", "nodes", "load"] sampleFile rfl
    (listMem_mem rfl)

/-- C1: the base-case load-shed line reports exactly total input demand
minus total base served demand, component-wise: P-shed is the sum of
column 0 of the load input table minus the sum of column 0 of the base
load-served table, Q-shed likewise with column 1, with no tolerance. -/
theorem c1_base_load_shed (fp : String) (f : HNode) (L B G S : List (List Rat))
    (hL : resolve f ["grid", "nodes", "load"] =
      some (HNode.dataset (HData.nums L)))
    (hB : resolve f ["base_solution", "opf", "nodes", "bus"] =
      some (HNode.dataset (HData.nums B)))
    (hG : resolve f ["base_solution", "opf", "nodes", "generator"] =
      some (HNode.dataset (HData.nums G)))
    (hS : resolve f ["base_solution", "opf", "nodes", "load"] =
      some (HNode.dataset (HData.nums S))) :
    Event.out (OutLine.loadShed (colSum 0 L - colSum 0 S)
      (colSum 1 L - colSum 1 S)) ∈ (readScenario fp f).events := by
  unfold readScenario
  apply mem_bind_left
  unfold scenarioBody
  refine mem_bind_right rfl ?_
  refine mem_bind_right rfl ?_
  refine mem_bind_right rfl ?_
  refine mem_bind_right (readNode_result_ok.mpr hL) ?_
  refine mem_bind_right rfl ?_
  refine mem_bind_right rfl ?_
  refine mem_bind_right rfl ?_
  refine mem_bind_right rfl ?_
  refine mem_bind_right rfl ?_
  refine mem_bind_right (readNode_result_ok.mpr hB) ?_
  refine mem_bind_right rfl ?_
  refine mem_bind_right (readNode_result_ok.mpr hG) ?_
  refine mem_bind_right rfl ?_
  refine mem_bind_right (readNode_result_ok.mpr hS) ?_
  refine mem_bind_right rfl ?_
  refine mem_bind_right rfl ?_
  refine mem_bind_right rfl ?_
  refine mem_bind_right rfl ?_
  apply mem_bind_left
  simp [emit]

/-- Witness for C1 at the spec scenario: demand (10,5)+(20,8), base
served (10,5)+(15,6), so the reported shed line carries P=5 and Q=2. -/
theorem c1_base_load_shed_witness :
    Event.out (OutLine.loadShed 5 2)
      ∈ (readScenario "scenario.h5" sampleFile).events := by
  have h := c1_base_load_shed "scenario.h5" sampleFile
    [[10, 5, 1, 1], [20, 8, 1, 1]] [[1, 1], [1, 1]] [[15], [10]]
    [[10, 5], [15, 6]] rfl rfl rfl rfl
  have e1 : colSum 0 [[10, 5, 1, 1], [20, 8, 1, 1]] -
      colSum 0 [[10, 5], [15, 6]] = (5 : Rat) := by
    norm_num [colSum, column]
  have e2 : colSum 1 [[10, 5, 1, 1], [20, 8, 1, 1]] -
      colSum 1 [[10, 5], [15, 6]] = (2 : Rat) := by
    norm_num [colSum, column]
  rw [e1, e2] at h
  exact h

/-- C2: the status string of a rendered per-contingency row is exactly one
of four values determined by the two convergence flags, and no contingency
row of any trace can carry a fifth status string. -/
theorem c2_row_status (fp : String) (f : HNode) (pf opf : Bool) :
    (rowStatus pf opf = "BOTH FAIL" ↔ (pf = false ∧ opf = false)) ∧
    (rowStatus pf opf = "PF OK, OPF FAIL" ↔ (pf = true ∧ opf = false)) ∧
    (rowStatus pf opf = "OPF OK" ↔ (pf = false ∧ opf = true)) ∧
    (rowStatus pf opf = "PF+OPF OK" ↔ (pf = true ∧ opf = true)) ∧
    (∀ nm ob sh s,
      Event.out (OutLine.contRow nm ob sh s) ∈ (readScenario fp f).events →
      s = "PF+OPF OK" ∨ s = "OPF OK") ∧
    (∀ nm s,
      Event.out (OutLine.contRowNA nm s) ∈ (readScenario fp f).events →
      s = "PF OK, OPF FAIL" ∨ s = "BOTH FAIL") := by
  refine ⟨?_, ?_, ?_, ?_, ?_, ?_⟩
  · cases pf <;> cases opf <;>
      simp [rowStatus, statusConverged, statusFailed]
  · cases pf <;> cases opf <;>
      simp [rowStatus, statusConverged, statusFailed]
  · cases pf <;> cases opf <;>
      simp [rowStatus, statusConverged, statusFailed]
  · cases pf <;> cases opf <;>
      simp [rowStatus, statusConverged, statusFailed]
  · intro nm ob sh s hmem
    rcases readScenario_events_good fp f _ hmem with hg | he
    · exact hg.1 nm ob sh s rfl
    · exact absurd he (by simp)
  · intro nm s hmem
    rcases readScenario_events_good fp f _ hmem with hg | he
    · exact hg.2.1 nm s rfl
    · exact absurd he (by simp)

/-- Witness for C2: both flags down yields the BOTH FAIL status. -/
theorem c2_row_status_witness : rowStatus false false = "BOTH FAIL" :=
  ((c2_row_status "s" sampleFile false false).1).mpr ⟨rfl, rfl⟩

/-- C4 counterexample: in fileC4, contingency 1 has opf_converged = 0,
yet the summarizer still attempts to read its opf/nodes/generator dataset
in the redispatch step. -/
theorem c4_counterexample :
    attrLookup sampleCont2 "opf_converged" = some 0 ∧
    resolve fileC4 ["post_contingency", "contingency_000001"] =
      some sampleCont2 ∧
    Event.readPath
        ["post_contingency", "contingency_000001", "opf", "nodes", "generator"]
      ∈ (readScenario "s" fileC4).events :=
  ⟨rfl, rfl, listMem_mem rfl⟩

/-- C4 as amended: any attempted read below the opf sub-tree of a
post-contingency group is either the fixed redispatch read of contingency
000001's generator table, or is for a group whose opf_converged attribute
equals 1; in particular the per-contingency loop reads no solution data of
a non-converged contingency. -/
theorem c4_guarded_solution_reads (fp : String) (f : HNode) (nm : String)
    (rest : List String)
    (h : Event.readPath ("post_contingency" :: nm :: "opf" :: rest)
      ∈ (readScenario fp f).events) :
    (nm = "contingency_000001" ∧ rest = ["nodes", "generator"]) ∨
    (∃ g, resolve f ["post_contingency", nm] = some g ∧
      attrLookup g "opf_converged" = some 1) := by
  rcases readScenario_events_good fp f _ h with hg | he
  · exact hg.2.2.2 nm rest rfl
  · exact absurd he (by simp)

/-- Witness for C4 as amended, at the redispatch read of the sample file. -/
theorem c4_guarded_solution_reads_witness :
    ("contingency_000001" = "contingency_000001" ∧
      (["nodes", "generator"] : List String) = ["nodes", "generator"]) ∨
    (∃ g, resolve sampleFile ["post_contingency", "contingency_000001"] =
        some g ∧ attrLookup g "opf_converged" = some 1) :=
  c4_guarded_solution_reads "s" sampleFile "contingency_000001"
    ["nodes", "generator"] (listMem_mem rfl)

/-- C5 counterexample: fileC5 declares count 1 but stores two entries in
the types array, and the summarization nevertheless succeeds: no
SchemaError-kind failure occurs on the length mismatch. -/
theorem c5_counterexample :
    attrLookup contMetaC5 "count" = some 1 ∧
    resolve fileC5 ["contingencies"] = some contMetaC5 ∧
    resolve fileC5 ["contingencies", "types"] =
      some (HNode.dataset (HData.nums1 [0, 1])) ∧
    (readScenario "s" fileC5).result = Except.ok () :=
  ⟨rfl, rfl, rfl, rfl⟩

/-- C5 as amended: the catalog stage performs no length validation; it
succeeds precisely when every parallel array has at least count entries
(extra entries are silently ignored), and a shorter array instead causes
an index error when the loop reaches the first missing index. -/
theorem c5_no_length_check (types : List Rat) (names ids : List String)
    (n : Nat) :
    ((forLoop (catalogRowAt types names ids) 0 n).result = Except.ok ()) ↔
      (n ≤ types.length ∧ n ≤ names.length ∧ n ≤ ids.length) := by
  rw [forLoop_catalog_result]
  constructor
  · rintro (rfl | h)
    · exact ⟨Nat.zero_le _, Nat.zero_le _, Nat.zero_le _⟩
    · obtain ⟨a1, a2, a3⟩ := h
      refine ⟨?_, ?_, ?_⟩ <;> omega
  · rintro ⟨h1, h2, h3⟩
    right
    refine ⟨?_, ?_, ?_⟩ <;> omega

/-- Witness for C5 as amended: one catalog row over a two-entry types
array succeeds. -/
theorem c5_no_length_check_witness :
    (forLoop (catalogRowAt [0, 1] ["line_1"] ["l1"]) 0 1).result =
      Except.ok () :=
  (c5_no_length_check [0, 1] ["line_1"] ["l1"] 1).mpr
    ⟨by simp, by simp, by simp⟩

/-- C6 counterexample: with the contingencies group missing, the
summarization aborts with a KeyError-kind condition, yet report lines up
to and including the base-case section header were already emitted:
partial report output is produced. -/
theorem c6_counterexample :
    (readScenario "s" fileC6).result =
      Except.error (Err.keyError ["contingencies"]) ∧
    Event.out OutLine.baseHeader ∈ (readScenario "s" fileC6).events :=
  ⟨rfl, listMem_mem rfl⟩

/-- C6 as amended: on any failure the summarization aborts, emitting
nothing after the failing read; in particular the closing rule of the
report is never rendered; output emitted before the failure remains. -/
theorem c6_abort_no_closing_rule (fp : String) (f : HNode) (err : Err)
    (h : (readScenario fp f).result = Except.error err) :
    Event.out OutLine.endRule ∉ (readScenario fp f).events := by
  intro hmem
  unfold readScenario at h hmem
  rw [Res.result_bind] at h
  rw [Res.events_bind] at hmem
  cases hr : (scenarioBody fp f).result with
  | ok a =>
    rw [hr] at h
    exact Except.noConfusion h
  | error e2 =>
    rw [hr] at hmem
    rcases List.mem_append.mp hmem with h2 | h2
    · exact (scenarioBody_events_good fp f _ h2).2.2.1 rfl
    · simp at h2

/-- Witness for C6 as amended at the concrete aborting file. -/
theorem c6_abort_no_closing_rule_witness :
    Event.out OutLine.endRule ∉ (readScenario "s" fileC6).events :=
  c6_abort_no_closing_rule "s" fileC6 (Err.keyError ["contingencies"]) rfl

/-- C8 counterexample: a missing addressed path under the element flag is
handled inside read_element, which returns normally, so the process exits
with code 0, not nonzero. -/
theorem c8_counterexample :
    resolve sampleFile ["nope"] = none ∧
    exitCode false (some "nope") "s" (some sampleFile) = 0 :=
  ⟨rfl, rfl⟩

/-- C8 as amended: exit code 0 on success and on the handled
element-not-found case; nonzero on the unhandled conditions: a missing
file, and a schema or read failure during summarization. -/
theorem c8_exit_codes :
    (∀ (s : Bool) (e : Option String) (fp : String),
      exitCode s e fp none = 1) ∧
    (∀ (f : HNode) (p : String) (fp : String), p ≠ "" →
      exitCode false (some p) fp (some f) = 0) ∧
    (∀ (f : HNode) (fp : String), (readScenario fp f).result = Except.ok () →
      exitCode false none fp (some f) = 0) ∧
    (∀ (f : HNode) (fp : String) (err : Err),
      (readScenario fp f).result = Except.error err →
      exitCode false none fp (some f) = 1) := by
  refine ⟨?_, ?_, ?_, ?_⟩
  · intro s e fp
    rfl
  · intro f p fp hp
    simp [exitCode, dispatch, hp]
  · intro f fp h
    simp [exitCode, dispatch, h]
  · intro f fp err h
    simp [exitCode, dispatch, h]

/-- Witness for C8 as amended: the aborting summarization exits 1. -/
theorem c8_exit_codes_witness :
    exitCode false none "s" (some fileC6) = 1 :=
  c8_exit_codes.2.2.2 fileC6 "s" (Err.keyError ["contingencies"]) rfl

/-- C9 counterexample: with both flags supplied, the structure flag wins
and the PathReader does not run even though an element path was given, so
the flags are not mutually exclusive. -/
theorem c9_counterexample :
    dispatch true (some "grid/nodes/load") = Component.walker ∧
    Component.walker ≠ Component.reader :=
  ⟨rfl, by simp⟩

/-- C9 as amended: dispatch selects exactly one component by priority:
the structure flag first, then a non-empty element path, else the
summarizer; the flags are not mutually exclusive and the structure flag
shadows the element flag. -/
theorem c9_dispatch (s : Bool) (e : Option String) :
    (dispatch s e = Component.walker ↔ s = true) ∧
    (dispatch s e = Component.reader ↔
      (s = false ∧ ∃ p, e = some p ∧ p ≠ "")) ∧
    (dispatch s e = Component.summarizer ↔
      (s = false ∧ (e = none ∨ e = some ""))) := by
  cases s
  · cases e with
    | none => simp [dispatch]
    | some p =>
      by_cases hp : p = ""
      · subst hp
        simp [dispatch]
      · simp [dispatch, hp]
  · simp [dispatch]

/-- Witness for C9 as amended: a lone non-empty element path selects the
PathReader. -/
theorem c9_dispatch_witness :
    dispatch false (some "grid/nodes/load") = Component.reader :=
  ((c9_dispatch false (some "grid/nodes/load")).2.1).mpr
    ⟨rfl, "grid/nodes/load", rfl, by simp⟩

/-- C10: the catalog type label is LINE exactly when the stored code is 0,
and every other code value is rendered GEN. -/
theorem c10_type_label (c : Rat) :
    (typeStr c = "LINE" ↔ c = 0) ∧ (c ≠ 0 → typeStr c = "GEN") := by
  unfold typeStr
  by_cases h : c = 0
  · simp [h]
  · simp [h]

/-- Witness for C10 at the code 2, which is neither 0 nor 1. -/
theorem c10_type_label_witness : typeStr 2 = "GEN" :=
  (c10_type_label 2).2 (by norm_num)

/-- C3: a generator index g appears as a row of the significant-redispatch
table iff the absolute difference between its contingency-1 and base
active power strictly exceeds 0.01; and the table has no rows iff the
explicit no-significant-redispatch notice is emitted instead. -/
theorem c3_redispatch_significance (baseGen cont1Gen : List (List Rat))
    (g : Nat) :
    ((∃ b c d, Event.out (OutLine.genRow (g + 1) b c d)
        ∈ redispatchEvents baseGen cont1Gen) ↔
      (g < (dpgOf baseGen cont1Gen).length ∧
        sigThreshold <
          |(column 0 cont1Gen).getD g 0 - (column 0 baseGen).getD g 0|)) ∧
    ((∀ i b c d, Event.out (OutLine.genRow i b c d)
        ∉ redispatchEvents baseGen cont1Gen) ↔
      Event.out OutLine.noRedispatch ∈ redispatchEvents baseGen cont1Gen) := by
  by_cases ha :
      (dpgOf baseGen cont1Gen).any (fun d => decide (sigThreshold < |d|)) = true
  · have hevs : redispatchEvents baseGen cont1Gen =
        Event.out OutLine.genTableHeader :: sigRows baseGen cont1Gen := by
      unfold redispatchEvents
      rw [if_pos ha]
    constructor
    · constructor
      · rintro ⟨b, c, d, hmem⟩
        rw [hevs] at hmem
        rcases List.mem_cons.mp hmem with h | h
        · exact absurd h (by simp)
        · unfold sigRows at h
          obtain ⟨t, d', h1, h2, h3⟩ :=
            (mem_sigRowsAux baseGen cont1Gen _ 0 _).mp h
          injection h3 with h3
          injection h3 with hidx hb hc hd
          have ht : t = g := by omega
          subst ht
          obtain ⟨hlt, -⟩ := List.get?_eq_some.mp h1
          refine ⟨hlt, ?_⟩
          have hget := dpgOf_get? baseGen cont1Gen t hlt
          rw [h1] at hget
          injection hget with hd'
          rw [← hd']
          exact h2
      · rintro ⟨hlt, hsig⟩
        have hget := dpgOf_get? baseGen cont1Gen g hlt
        refine ⟨(column 0 baseGen).getD g 0, (column 0 cont1Gen).getD g 0,
          (column 0 cont1Gen).getD g 0 - (column 0 baseGen).getD g 0, ?_⟩
        rw [hevs]
        refine List.mem_cons_of_mem _ ?_
        unfold sigRows
        refine (mem_sigRowsAux baseGen cont1Gen _ 0 _).mpr
          ⟨g, _, hget, hsig, ?_⟩
        simp
    · constructor
      · intro hall
        exfalso
        obtain ⟨d, hdmem, hdsig⟩ := List.any_eq_true.mp ha
        obtain ⟨t, hget⟩ := List.get?_of_mem hdmem
        have hsig2 : sigThreshold < |d| := of_decide_eq_true (by simpa using hdsig)
        refine hall (0 + t + 1) ((column 0 baseGen).getD (0 + t) 0)
          ((column 0 cont1Gen).getD (0 + t) 0) d ?_
        rw [hevs]
        refine List.mem_cons_of_mem _ ?_
        unfold sigRows
        exact (mem_sigRowsAux baseGen cont1Gen _ 0 _).mpr
          ⟨t, d, hget, hsig2, rfl⟩
      · intro hmem
        exfalso
        rw [hevs] at hmem
        rcases List.mem_cons.mp hmem with h | h
        · exact absurd h (by simp)
        · unfold sigRows at h
          obtain ⟨t, d, h1, h2, h3⟩ :=
            (mem_sigRowsAux baseGen cont1Gen _ 0 _).mp h
          exact absurd h3 (by simp)
  · have hevs : redispatchEvents baseGen cont1Gen =
        [Event.out OutLine.noRedispatch] := by
      unfold redispatchEvents
      rw [if_neg ha]
    constructor
    · constructor
      · rintro ⟨b, c, d, hmem⟩
        rw [hevs] at hmem
        simp at hmem
      · rintro ⟨hlt, hsig⟩
        exfalso
        apply ha
        have hget := dpgOf_get? baseGen cont1Gen g hlt
        have hdmem :
            ((column 0 cont1Gen).getD g 0 - (column 0 baseGen).getD g 0)
              ∈ dpgOf baseGen cont1Gen := List.get?_mem hget
        exact List.any_eq_true.mpr ⟨_, hdmem, by simpa using decide_eq_true hsig⟩
    · constructor
      · intro hall
        rw [hevs]
        exact List.mem_cons_self _ _
      · intro hnotice i b c d hmem
        rw [hevs] at hmem
        simp at hmem

/-- Witness for C3: with base output 15 and contingency output 14, the
delta of 1 exceeds the threshold, so generator 1 appears in the table. -/
theorem c3_redispatch_significance_witness :
    ∃ b c d, Event.out (OutLine.genRow (0 + 1) b c d)
      ∈ redispatchEvents [[15]] [[14]] :=
  ((c3_redispatch_significance [[15]] [[14]] 0).1).mpr
    ⟨by simp [dpgOf, column], by norm_num [sigThreshold, column]⟩

end ExaGridRead
